import Mathlib

/-!
Verification of the networking planner of dcastillogi/aws-cdk-vpc.

The TypeScript source (src/lib/networking-stack.ts) is shallowly embedded:

* JavaScript numbers, as used by this code, are either an exact integer or
  NaN; they are modelled by JSNum := Option Int with none standing for NaN.
  None of the modelled functions can throw except the two explicit
  throw statements of the source, which become Except.error values.
* String.split with a one-character separator is modelled by splitOnChar,
  Array.join by joinChar, and parseInt (radix unspecified) by jsParseInt,
  following the ECMAScript algorithm: skip leading whitespace, optional
  sign, optional 0x/0X hex marker, then the longest digit run; NaN (none)
  when that run is empty.
* CDK constructs become plain record nodes; a construct reference (.ref,
  .instanceId) is modelled by the construct id string that the source
  passes to the CDK constructor (WebRouteTable, WebSubnet0, ...).
* The availability zones, region and account that CDK would resolve from
  the environment are explicit parameters.
-/

/-- JS number as used by this code: some n is an exact integer, none is NaN. -/
abbrev JSNum := Option Int

/-- Whitespace accepted by parseInt before the number. -/
def isJsSpace (c : Char) : Bool :=
  c = ' ' || c = '\t' || c = '\n' || c = '\r'

/-- Digits of the given radix (only 10 and 16 arise, as in parseInt). -/
def isRadixDigit (radix : Nat) (c : Char) : Bool :=
  if radix = 16 then c.isDigit || ('a' ≤ c && c ≤ 'f') || ('A' ≤ c && c ≤ 'F')
  else c.isDigit

/-- Numeric value of a (radix ≤ 16) digit character. -/
def hexDigitValue (c : Char) : Nat :=
  if c.isDigit then c.toNat - '0'.toNat
  else if 'a' ≤ c && c ≤ 'f' then c.toNat - 'a'.toNat + 10
  else c.toNat - 'A'.toNat + 10

/-- Model of JavaScript parseInt(s) with the radix argument omitted:
leading whitespace, optional sign, optional 0x/0X hex marker, longest
digit run; none (NaN) when no digit follows. -/
def jsParseInt (s : List Char) : JSNum :=
  let s1 := s.dropWhile isJsSpace
  let sign : Int := match s1 with | '-' :: _ => -1 | _ => 1
  let s2 := match s1 with | '-' :: r => r | '+' :: r => r | _ => s1
  let rs : Nat × List Char :=
    match s2 with
    | '0' :: 'x' :: r => (16, r)
    | '0' :: 'X' :: r => (16, r)
    | _ => (10, s2)
  let ds := rs.2.takeWhile (isRadixDigit rs.1)
  if ds.isEmpty then none
  else some (sign * ((ds.foldl (fun a c => a * rs.1 + hexDigitValue c) 0 : Nat) : Int))

/-- Model of JavaScript String.prototype.split with a one-character
separator: s.split(sep). Always returns at least one part. -/
def splitOnChar (sep : Char) : List Char → List (List Char)
  | [] => [[]]
  | c :: rest =>
    match splitOnChar sep rest with
    | [] => [[]]
    | cur :: parts => if c = sep then [] :: cur :: parts else (c :: cur) :: parts

/-- Model of JavaScript Array.prototype.join with a one-character separator. -/
def joinChar (sep : Char) : List (List Char) → List Char
  | [] => []
  | [p] => p
  | p :: ps => p ++ sep :: joinChar sep ps

/-- Model of JavaScript Array.prototype.forEach((x, index) => ...) where the
callback builds one node per element: map with the element index, starting
at the given counter. -/
def mapIdx {α β : Type} (f : Nat → α → β) : Nat → List α → List β
  | _, [] => []
  | i, x :: xs => f i x :: mapIdx f (i + 1) xs

/-- JS ToUint32 on a JSNum: NaN becomes 0, an integer is reduced mod 2^32. -/
def jsToUint32 : JSNum → Nat
  | none => 0
  | some x => (x % 4294967296).toNat

/-- networking-stack.ts lines 20-22:
ipToNumber(ip) = ip.split('.').reduce((acc, octet) => acc * 256 + parseInt(octet), 0).
NaN (none) propagates through the arithmetic exactly as in JS; the
function itself can never throw. -/
def ipToNumber (ip : String) : JSNum :=
  (splitOnChar '.' ip.data).foldl
    (fun acc octet =>
      match acc, jsParseInt octet with
      | some a, some n => some (a * 256 + n)
      | _, _ => none)
    (some 0)

/-- networking-stack.ts lines 24-26:
numberToIp(num) = [(num>>>24)&255, (num>>>16)&255, (num>>>8)&255, num&255].join('.').
Each >>> (and the bare & of the last element) first applies ToUint32 to
num; the remaining & 255 matches the Nat operation on the resulting
32-bit value. -/
def numberToIp (num : JSNum) : String :=
  String.mk (joinChar '.'
    [(Nat.repr ((jsToUint32 num >>> 24) &&& 255)).data,
     (Nat.repr ((jsToUint32 num >>> 16) &&& 255)).data,
     (Nat.repr ((jsToUint32 num >>> 8) &&& 255)).data,
     (Nat.repr (jsToUint32 num &&& 255)).data])

/-- src/shared/types.ts: ConfigProps. -/
structure ConfigProps where
  project : String
  cidr : String
  region : String
  env : String
  awsApplicationTag : Option String
  accounts : Option (List String)
deriving DecidableEq

/-- The instance state visible to the private methods of NetworkingStack
at the time calculateFixedSubnetAllocation is invoked (the props the
constructor received). The method reads none of it. -/
structure StackSelf where
  config : ConfigProps
  namePrefix : String
deriving DecidableEq

/-- Return value of calculateFixedSubnetAllocation (subnetAllocation field). -/
structure Allocation where
  web : List String
  app : List String
  data : List String
deriving DecidableEq

/-- networking-stack.ts lines 28-79. The two-iteration loops pushing into
webSubnets/appSubnets/dataSubnets are written out over their index
ranges [0,1], [2,3], [4,5]. The throw at line 42 becomes Except.error
carrying the same message text; template-literal interpolation of an
undefined split component renders as the string undefined, as in JS. -/
def calculateFixedSubnetAllocation (self : StackSelf) (vpcCidr : String) :
    Except String Allocation :=
  let parts := splitOnChar '/' vpcCidr.data
  let vpcNetwork := parts.headD []
  let vpcPrefix := parts[1]?
  if vpcPrefix ≠ some ['1', '6'] then
    .error (String.mk ("VPC CIDR must be /16, got /".data
      ++ vpcPrefix.getD "undefined".data))
  else
    let vpcBaseIp := ipToNumber (String.mk vpcNetwork)
    let subnetSize : Int := 4096
    let mkSubnet (i : Nat) : String :=
      numberToIp (vpcBaseIp.map (fun b => b + (i : Int) * subnetSize)) ++ "/20"
    .ok { web := (List.range' 0 2).map mkSubnet,
          app := (List.range' 2 2).map mkSubnet,
          data := (List.range' 4 2).map mkSubnet }

/-- A CfnSubnet node (id is the construct id, doubling as the .ref token). -/
structure SubnetNode where
  id : String
  cidrBlock : String
  availabilityZone : String
  mapPublicIpOnLaunch : Bool
  nameTag : String
deriving DecidableEq

/-- A CfnRouteTable node. -/
structure RouteTableNode where
  id : String
  nameTag : String
deriving DecidableEq

/-- A CfnSubnetRouteTableAssociation node. -/
structure AssociationNode where
  subnetId : String
  routeTableId : String
deriving DecidableEq

/-- A CfnRoute node; the target is either a gateway or an instance. -/
structure RouteNode where
  routeTableId : String
  destinationCidrBlock : String
  gatewayId : Option String
  instanceId : Option String
deriving DecidableEq

/-- Port argument of a security-group rule (only allTraffic occurs). -/
inductive PortSpec where
  | allTraffic
deriving DecidableEq

/-- A security-group ingress rule. -/
structure IngressRule where
  peer : String
  port : PortSpec
  description : String
deriving DecidableEq

/-- The NAT ec2.Instance node. vpcSubnets holds the subnet ids of the
vpcSubnets.subnets array; an element is none where the source indexes
past the end of the subnet list (JS undefined). -/
structure InstanceNode where
  instanceType : String
  vpcSubnets : List (Option String)
  securityGroupId : String
  sourceDestCheck : Bool
  nameTag : String
deriving DecidableEq

/-- A CfnVPCEndpoint node. -/
structure EndpointNode where
  id : String
  serviceName : String
  vpcEndpointType : String
  routeTableIds : List String
deriving DecidableEq

/-- A ram.CfnResourceShare node. -/
structure ResourceShareNode where
  name : String
  resourceArns : List String
  principals : List String
  allowExternalPrincipals : Bool
deriving DecidableEq

/-- The resource graph built by the NetworkingStack constructor. -/
structure NetworkingStack where
  vpcCidr : String
  subnetAllocation : Allocation
  internetGatewayId : String
  routeTables : List RouteTableNode
  subnets : List SubnetNode
  associations : List AssociationNode
  routes : List RouteNode
  natSGIngress : List IngressRule
  natInstance : InstanceNode
  endpoints : List EndpointNode
  resourceShare : Option ResourceShareNode
  webSubnetIds : List String
  appSubnetIds : List String
  dataSubnetIds : List String
deriving DecidableEq

/-- ARN string built for each shared subnet (lines 342-350). -/
def subnetArn (region account subnetId : String) : String :=
  "arn:aws:ec2:" ++ region ++ ":" ++ account ++ ":subnet/" ++ subnetId

/-- networking-stack.ts lines 81-364, the NetworkingStack constructor.

The constructor validates the CIDR (lines 92-95: a throw, modelled as
Except.error with the same message), computes the allocation, then builds
every node; region, account and the availability-zone list (truncated to
2 by slice(0,2) at line 141) are the environment values CDK would
resolve. Node ids and tags follow the source literally; azSuffix is the
position-based (index+1) name of lines 147/169/190. -/
def mkNetworkingStack (config : ConfigProps) (namePrefix : String)
    (region account : String) (azs : List String) :
    Except String NetworkingStack :=
  let vpcPrefix := (splitOnChar '/' config.cidr.data)[1]?
  if vpcPrefix ≠ some ['1', '6'] then
    .error (String.mk ("VPC CIDR must be /16, got /".data
      ++ vpcPrefix.getD "undefined".data
      ++ ". This CDK is designed for /16 VPCs with /20 subnets.".data))
  else
    match calculateFixedSubnetAllocation ⟨config, namePrefix⟩ config.cidr with
    | .error e => .error e
    | .ok allocation =>
      let azs2 := azs.take 2
      let webSubnets : List SubnetNode := mapIdx (fun index az =>
        { id := "WebSubnet" ++ Nat.repr index,
          cidrBlock := allocation.web.getD index "",
          availabilityZone := az,
          mapPublicIpOnLaunch := true,
          nameTag := namePrefix ++ "-web-" ++ Nat.repr (index + 1) }) 0 azs2
      let appSubnets : List SubnetNode := mapIdx (fun index az =>
        { id := "AppSubnet" ++ Nat.repr index,
          cidrBlock := allocation.app.getD index "",
          availabilityZone := az,
          mapPublicIpOnLaunch := false,
          nameTag := namePrefix ++ "-app-" ++ Nat.repr (index + 1) }) 0 azs2
      let dataSubnets : List SubnetNode := mapIdx (fun index az =>
        { id := "DataSubnet" ++ Nat.repr index,
          cidrBlock := allocation.data.getD index "",
          availabilityZone := az,
          mapPublicIpOnLaunch := false,
          nameTag := namePrefix ++ "-data-" ++ Nat.repr (index + 1) }) 0 azs2
      let webIds := webSubnets.map (fun s => s.id)
      let appIds := appSubnets.map (fun s => s.id)
      let dataIds := dataSubnets.map (fun s => s.id)
      .ok {
        vpcCidr := config.cidr,
        subnetAllocation := allocation,
        internetGatewayId := "InternetGateway",
        routeTables :=
          [{ id := "WebRouteTable", nameTag := namePrefix ++ "-web-rtb" },
           { id := "AppRouteTable", nameTag := namePrefix ++ "-app-rtb" },
           { id := "DataRouteTable", nameTag := namePrefix ++ "-data-rtb" }],
        subnets := webSubnets ++ appSubnets ++ dataSubnets,
        associations :=
          mapIdx (fun index _ =>
            { subnetId := "WebSubnet" ++ Nat.repr index,
              routeTableId := "WebRouteTable" : AssociationNode }) 0 azs2
          ++ mapIdx (fun index _ =>
            { subnetId := "AppSubnet" ++ Nat.repr index,
              routeTableId := "AppRouteTable" : AssociationNode }) 0 azs2
          ++ mapIdx (fun index _ =>
            { subnetId := "DataSubnet" ++ Nat.repr index,
              routeTableId := "DataRouteTable" : AssociationNode }) 0 azs2,
        routes :=
          [{ routeTableId := "WebRouteTable",
             destinationCidrBlock := "0.0.0.0/0",
             gatewayId := some "InternetGateway",
             instanceId := none },
           { routeTableId := "AppRouteTable",
             destinationCidrBlock := "0.0.0.0/0",
             gatewayId := none,
             instanceId := some "NatInstance" }],
        natSGIngress :=
          [{ peer := config.cidr,
             port := .allTraffic,
             description := "Allow all traffic from VPC" }],
        natInstance :=
          { instanceType := "t4g.nano",
            vpcSubnets := [webIds[0]?],
            securityGroupId := "NatSG",
            sourceDestCheck := false,
            nameTag := namePrefix ++ "-nat-instance" },
        endpoints :=
          [{ id := "S3Endpoint",
             serviceName := "com.amazonaws." ++ region ++ ".s3",
             vpcEndpointType := "Gateway",
             routeTableIds := ["AppRouteTable"] },
           { id := "DynamoDbEndpoint",
             serviceName := "com.amazonaws." ++ region ++ ".dynamodb",
             vpcEndpointType := "Gateway",
             routeTableIds := ["AppRouteTable"] }],
        resourceShare :=
          match config.accounts with
          | some (acct :: accts) =>
            some { name := namePrefix ++ "-subnet-share",
                   resourceArns :=
                     (webIds ++ appIds ++ dataIds).map
                       (fun sid => subnetArn region account sid),
                   principals := acct :: accts,
                   allowExternalPrincipals := false }
          | _ => none,
        webSubnetIds := webIds,
        appSubnetIds := appIds,
        dataSubnetIds := dataIds }

/-! ## Derived notions used to state the claims -/

/-- Canonical dotted-quad text of four octet values. -/
def quadStr (a b c d : Nat) : String :=
  String.mk (joinChar '.'
    [(Nat.repr a).data, (Nat.repr b).data, (Nat.repr c).data, (Nat.repr d).data])

/-- Numeric value of the four octets of a dotted quad. -/
def quadVal (a b c d : Nat) : Int :=
  16777216 * a + 65536 * b + 256 * c + d

/-- p is the canonical decimal text of an octet value in [0, 255]. -/
def canonicalOctet (p : List Char) : Bool :=
  decide (∃ n : Fin 256, p = (Nat.repr n.1).data)

/-- s is a valid dotted-quad address string: four dot-separated octets,
each the decimal text of an integer in [0, 255]. -/
def isValidQuad (s : String) : Bool :=
  match splitOnChar '.' s.data with
  | [p1, p2, p3, p4] =>
    canonicalOctet p1 && canonicalOctet p2 && canonicalOctet p3 && canonicalOctet p4
  | _ => false

/-- Numeric start address of a CIDR string (its text before the first
slash), computed with the program's own address arithmetic. -/
def cidrStart (s : String) : JSNum :=
  ipToNumber (String.mk ((splitOnChar '/' s.data).headD []))

/-- x lies in the 4096-address block of the /20 CIDR string s. -/
def inBlock20 (s : String) (x : Int) : Prop :=
  ∃ n, cidrStart s = some n ∧ n ≤ x ∧ x < n + 4096

/-- The six sub-blocks of an allocation, in tier order Web, App, Data
and zone order 0, 1 within each tier. -/
def Allocation.blocks (A : Allocation) : List String :=
  A.web ++ A.app ++ A.data

/-- The three tiers, in allocation order. -/
inductive Tier where
  | web
  | app
  | data
deriving DecidableEq

/-- Construct id of the route table of a tier. -/
def tierRouteTableId : Tier → String
  | .web => "WebRouteTable"
  | .app => "AppRouteTable"
  | .data => "DataRouteTable"

/-- Construct id of the subnet of a (tier, zone index) pair. -/
def tierSubnetId : Tier → Nat → String
  | .web, i => "WebSubnet" ++ Nat.repr i
  | .app, i => "AppSubnet" ++ Nat.repr i
  | .data, i => "DataSubnet" ++ Nat.repr i

/-- The sub-block list of one tier inside an allocation. -/
def Allocation.blocksOf (A : Allocation) : Tier → List String
  | .web => A.web
  | .app => A.app
  | .data => A.data

/-- The routes of st whose destination is 0.0.0.0/0 and whose route
table is rtbId. -/
def defaultRoutesTo (st : NetworkingStack) (rtbId : String) : List RouteNode :=
  st.routes.filter
    (fun r => r.routeTableId == rtbId && r.destinationCidrBlock == "0.0.0.0/0")

/-- A concrete configuration used by the witness theorems. -/
def sampleConfig : ConfigProps :=
  { project := "testapp", cidr := "10.10.0.0/16", region := "us-east-1",
    env := "dev", awsApplicationTag := none, accounts := some ["111122223333"] }

/-- A concrete receiver for calculateFixedSubnetAllocation. -/
def sampleSelf : StackSelf :=
  { config := sampleConfig, namePrefix := "dev-testapp" }

/-- The stack the constructor builds from sampleConfig with two
availability zones (the error branch is unreachable for this input). -/
def sampleStack : NetworkingStack :=
  match mkNetworkingStack sampleConfig "dev-testapp" "us-east-1" "123456789012"
      ["use1-az1", "use1-az2"] with
  | .ok st => st
  | .error _ =>
    { vpcCidr := "", subnetAllocation := ⟨[], [], []⟩, internetGatewayId := "",
      routeTables := [], subnets := [], associations := [], routes := [],
      natSGIngress := [], natInstance := ⟨"", [], "", false, ""⟩, endpoints := [],
      resourceShare := none, webSubnetIds := [], appSubnetIds := [], dataSubnetIds := [] }

/-! ## Supporting lemmas -/

set_option maxRecDepth 8192 in
theorem jsParseInt_repr :
    ∀ n : Fin 256, jsParseInt (Nat.repr n.1).data = some (n.1 : Int) := by
  decide

set_option maxRecDepth 8192 in
theorem repr_all_digits :
    ∀ n : Fin 256, (Nat.repr n.1).data.all (fun c => c.isDigit) = true := by
  decide

theorem jsParseInt_repr_of_lt {n : Nat} (h : n < 256) :
    jsParseInt (Nat.repr n).data = some (n : Int) :=
  jsParseInt_repr ⟨n, h⟩

theorem not_mem_repr {c : Char} (hc : c.isDigit = false) {n : Nat} (hn : n < 256) :
    c ∉ (Nat.repr n).data := by
  intro hmem
  have hall := repr_all_digits ⟨n, hn⟩
  rw [List.all_eq_true] at hall
  have := hall c hmem
  rw [hc] at this
  exact Bool.noConfusion this

theorem splitOnChar_ne_nil (sep : Char) (l : List Char) : splitOnChar sep l ≠ [] := by
  cases l with
  | nil => simp [splitOnChar]
  | cons c rest =>
    simp only [splitOnChar]
    split
    · simp
    · split <;> simp

theorem splitOnChar_exists_cons (sep : Char) (l : List Char) :
    ∃ cur parts, splitOnChar sep l = cur :: parts := by
  cases hsp : splitOnChar sep l with
  | nil => exact absurd hsp (splitOnChar_ne_nil sep l)
  | cons cur parts => exact ⟨cur, parts, rfl⟩

theorem splitOnChar_of_not_mem {sep : Char} {l : List Char} (h : sep ∉ l) :
    splitOnChar sep l = [l] := by
  induction l with
  | nil => rfl
  | cons c rest ih =>
    have hc : c ≠ sep := by
      rintro rfl
      exact h (List.mem_cons_self _ _)
    have hrest : sep ∉ rest := fun hm => h (List.mem_cons_of_mem _ hm)
    simp only [splitOnChar, ih hrest]
    simp [hc]

theorem splitOnChar_append {sep : Char} {l1 : List Char} (l2 : List Char)
    (h : sep ∉ l1) :
    splitOnChar sep (l1 ++ sep :: l2) = l1 :: splitOnChar sep l2 := by
  induction l1 with
  | nil =>
    obtain ⟨cur, parts, heq⟩ := splitOnChar_exists_cons sep l2
    simp [splitOnChar, heq]
  | cons c rest ih =>
    have hc : c ≠ sep := by
      rintro rfl
      exact h (List.mem_cons_self _ _)
    have hrest : sep ∉ rest := fun hm => h (List.mem_cons_of_mem _ hm)
    rw [List.cons_append]
    show (match splitOnChar sep (rest ++ sep :: l2) with
      | [] => [[]]
      | cur :: parts => if c = sep then [] :: cur :: parts else (c :: cur) :: parts) =
      (c :: rest) :: splitOnChar sep l2
    rw [ih hrest]
    simp [hc]

theorem joinChar_cons2 (sep : Char) (p q : List Char) (ps : List (List Char)) :
    joinChar sep (p :: q :: ps) = p ++ sep :: joinChar sep (q :: ps) := rfl

theorem joinChar_splitOnChar (sep : Char) (l : List Char) :
    joinChar sep (splitOnChar sep l) = l := by
  induction l with
  | nil => rfl
  | cons c rest ih =>
    obtain ⟨cur, parts, heq⟩ := splitOnChar_exists_cons sep rest
    rw [heq] at ih
    by_cases hc : c = sep
    · subst hc
      show joinChar c (match splitOnChar c rest with
        | [] => [[]]
        | cur :: parts => if c = c then [] :: cur :: parts else (c :: cur) :: parts) = c :: rest
      rw [heq]
      show joinChar c (if c = c then [] :: cur :: parts else (c :: cur) :: parts) = c :: rest
      rw [if_pos rfl, joinChar_cons2, ih]
      rfl
    · show joinChar sep (match splitOnChar sep rest with
        | [] => [[]]
        | cur :: parts => if c = sep then [] :: cur :: parts else (c :: cur) :: parts) = c :: rest
      rw [heq]
      show joinChar sep (if c = sep then [] :: cur :: parts else (c :: cur) :: parts) = c :: rest
      rw [if_neg hc]
      cases parts with
      | nil =>
        show joinChar sep [c :: cur] = c :: rest
        show c :: cur = c :: rest
        rw [show joinChar sep [cur] = cur from rfl] at ih
        rw [ih]
      | cons q qs =>
        rw [joinChar_cons2] at ih ⊢
        rw [List.cons_append, ih]

theorem mem_joinChar {x sep : Char} {l : List (List Char)}
    (h : x ∈ joinChar sep l) : x = sep ∨ ∃ p ∈ l, x ∈ p := by
  induction l with
  | nil => exact absurd h (List.not_mem_nil x)
  | cons p ps ih =>
    cases ps with
    | nil =>
      right
      exact ⟨p, List.mem_cons_self _ _, h⟩
    | cons q qs =>
      rw [joinChar_cons2] at h
      rcases List.mem_append.1 h with h1 | h2
      · right
        exact ⟨p, List.mem_cons_self _ _, h1⟩
      · rcases List.mem_cons.1 h2 with rfl | h3
        · left
          rfl
        · rcases ih h3 with h4 | ⟨r, hr, hxr⟩
          · left
            exact h4
          · right
            exact ⟨r, List.mem_cons_of_mem _ hr, hxr⟩

theorem string_data_append (s t : String) : (s ++ t).data = s.data ++ t.data := by
  cases s
  cases t
  rfl

theorem quadStr_data (a b c d : Nat) :
    (quadStr a b c d).data =
      (Nat.repr a).data ++ '.' :: ((Nat.repr b).data ++ '.' ::
        ((Nat.repr c).data ++ '.' :: (Nat.repr d).data)) := rfl

theorem splitOnChar_quadStr {a b c d : Nat}
    (ha : a < 256) (hb : b < 256) (hc : c < 256) (hd : d < 256) :
    splitOnChar '.' (quadStr a b c d).data =
      [(Nat.repr a).data, (Nat.repr b).data, (Nat.repr c).data, (Nat.repr d).data] := by
  have hna := not_mem_repr (c := '.') (by decide) ha
  have hnb := not_mem_repr (c := '.') (by decide) hb
  have hnc := not_mem_repr (c := '.') (by decide) hc
  have hnd := not_mem_repr (c := '.') (by decide) hd
  rw [quadStr_data, splitOnChar_append _ hna, splitOnChar_append _ hnb,
    splitOnChar_append _ hnc, splitOnChar_of_not_mem hnd]
theorem octet_decomp (a b c d : Nat) (ha : a < 256) (hb : b < 256) (hc : c < 256) (hd : d < 256) :
    ((16777216*a + 65536*b + 256*c + d) >>> 24) &&& 255 = a ∧
    ((16777216*a + 65536*b + 256*c + d) >>> 16) &&& 255 = b ∧
    ((16777216*a + 65536*b + 256*c + d) >>> 8) &&& 255 = c ∧
    (16777216*a + 65536*b + 256*c + d) &&& 255 = d := by
  have e255 : ∀ x : Nat, x &&& 255 = x % 256 := fun x => by
    have h := Nat.and_pow_two_sub_one_eq_mod x 8
    norm_num at h
    exact h
  have esh : ∀ (x k : Nat), x >>> k = x / 2 ^ k := fun x k => Nat.shiftRight_eq_div_pow x k
  rw [e255, e255, e255, e255, esh, esh, esh]
  norm_num
  omega

theorem ipToNumber_quadStr {a b c d : Nat}
    (ha : a < 256) (hb : b < 256) (hc : c < 256) (hd : d < 256) :
    ipToNumber (quadStr a b c d) = some (quadVal a b c d) := by
  unfold ipToNumber
  rw [splitOnChar_quadStr ha hb hc hd]
  simp only [List.foldl_cons, List.foldl_nil,
    jsParseInt_repr_of_lt ha, jsParseInt_repr_of_lt hb,
    jsParseInt_repr_of_lt hc, jsParseInt_repr_of_lt hd]
  unfold quadVal
  congr 1
  push_cast
  ring

theorem jsToUint32_quadVal {a b c d : Nat}
    (ha : a < 256) (hb : b < 256) (hc : c < 256) (hd : d < 256) :
    jsToUint32 (some (quadVal a b c d)) = 16777216*a + 65536*b + 256*c + d := by
  have hcast : quadVal a b c d = ((16777216*a + 65536*b + 256*c + d : Nat) : Int) := by
    unfold quadVal
    push_cast
    ring
  rw [hcast]
  show (((16777216*a + 65536*b + 256*c + d : Nat) : Int) % 4294967296).toNat =
    16777216*a + 65536*b + 256*c + d
  rw [Int.emod_eq_of_lt (by positivity)
    (by exact_mod_cast (by omega : 16777216*a + 65536*b + 256*c + d < 4294967296)),
    Int.toNat_natCast]

theorem numberToIp_octets {a b c d : Nat}
    (ha : a < 256) (hb : b < 256) (hc : c < 256) (hd : d < 256) :
    numberToIp (some (quadVal a b c d)) = quadStr a b c d := by
  obtain ⟨h24, h16, h8, h0⟩ := octet_decomp a b c d ha hb hc hd
  unfold numberToIp
  rw [jsToUint32_quadVal ha hb hc hd, h24, h16, h8, h0]
  rfl

theorem roundtrip_quadStr {a b c d : Nat}
    (ha : a < 256) (hb : b < 256) (hc : c < 256) (hd : d < 256) :
    numberToIp (ipToNumber (quadStr a b c d)) = quadStr a b c d := by
  rw [ipToNumber_quadStr ha hb hc hd, numberToIp_octets ha hb hc hd]
theorem slash_not_mem_quadStr {a b c d : Nat}
    (ha : a < 256) (hb : b < 256) (hc : c < 256) (hd : d < 256) :
    '/' ∉ (quadStr a b c d).data := by
  intro hmem
  have hmem2 : '/' ∈ joinChar '.'
      [(Nat.repr a).data, (Nat.repr b).data, (Nat.repr c).data, (Nat.repr d).data] := hmem
  rcases mem_joinChar hmem2 with h | ⟨p, hp, hxp⟩
  · exact absurd h (by decide)
  · simp only [List.mem_cons, List.not_mem_nil, or_false] at hp
    rcases hp with rfl | rfl | rfl | rfl
    · exact not_mem_repr (by decide) ha hxp
    · exact not_mem_repr (by decide) hb hxp
    · exact not_mem_repr (by decide) hc hxp
    · exact not_mem_repr (by decide) hd hxp

theorem splitSlash_cidr {q p : List Char} (hq : '/' ∉ q) (hp : '/' ∉ p) :
    splitOnChar '/' (q ++ '/' :: p) = [q, p] := by
  rw [splitOnChar_append _ hq, splitOnChar_of_not_mem hp]

theorem cidrStart_quad20 {a b c : Nat} (ha : a < 256) (hb : b < 256) (hc : c < 256) :
    cidrStart (quadStr a b c 0 ++ "/20") = some (quadVal a b c 0) := by
  unfold cidrStart
  have h0 : (0 : Nat) < 256 := by norm_num
  have hd20 : (quadStr a b c 0 ++ "/20").data = (quadStr a b c 0).data ++ '/' :: ['2', '0'] := by
    rw [string_data_append]
  rw [hd20, splitSlash_cidr (slash_not_mem_quadStr ha hb hc h0) (by decide)]
  show ipToNumber (String.mk (quadStr a b c 0).data) = some (quadVal a b c 0)
  exact ipToNumber_quadStr ha hb hc h0

theorem calc_alloc_valid16 (a b : Nat) (ha : a < 256) (hb : b < 256) (self : StackSelf) :
    calculateFixedSubnetAllocation self (quadStr a b 0 0 ++ "/16") =
      .ok { web := [quadStr a b 0 0 ++ "/20", quadStr a b 16 0 ++ "/20"],
            app := [quadStr a b 32 0 ++ "/20", quadStr a b 48 0 ++ "/20"],
            data := [quadStr a b 64 0 ++ "/20", quadStr a b 80 0 ++ "/20"] } := by
  have h0 : (0 : Nat) < 256 := by norm_num
  have hd16 : (quadStr a b 0 0 ++ "/16").data = (quadStr a b 0 0).data ++ '/' :: ['1', '6'] := by
    rw [string_data_append]
  have hsplit : splitOnChar '/' (quadStr a b 0 0 ++ "/16").data =
      [(quadStr a b 0 0).data, ['1', '6']] := by
    rw [hd16]
    exact splitSlash_cidr (slash_not_mem_quadStr ha hb h0 h0) (by decide)
  have hbase : ipToNumber (String.mk (quadStr a b 0 0).data) = some (quadVal a b 0 0) :=
    ipToNumber_quadStr ha hb h0 h0
  have key : ∀ (x : Int) (c : Nat), c < 256 → x = quadVal a b c 0 →
      numberToIp (some x) ++ "/20" = quadStr a b c 0 ++ "/20" := by
    intro x c hcc hx
    rw [hx, numberToIp_octets ha hb hcc h0]
  simp only [calculateFixedSubnetAllocation, hsplit]
  rw [show ([(quadStr a b 0 0).data, ['1', '6']] : List (List Char))[1]? = some ['1', '6'] from rfl]
  rw [if_neg (not_not_intro rfl)]
  simp only [List.headD_cons, List.range', List.map_cons, List.map_nil, hbase, Option.map_some']
  congr 1
  congr 1
  · refine List.cons_eq_cons.2 ⟨?_, List.cons_eq_cons.2 ⟨?_, rfl⟩⟩
    · exact key _ 0 (by norm_num) (by unfold quadVal; push_cast; ring)
    · exact key _ 16 (by norm_num) (by unfold quadVal; push_cast; ring)
  · refine List.cons_eq_cons.2 ⟨?_, List.cons_eq_cons.2 ⟨?_, rfl⟩⟩
    · exact key _ 32 (by norm_num) (by unfold quadVal; push_cast; ring)
    · exact key _ 48 (by norm_num) (by unfold quadVal; push_cast; ring)
  · refine List.cons_eq_cons.2 ⟨?_, List.cons_eq_cons.2 ⟨?_, rfl⟩⟩
    · exact key _ 64 (by norm_num) (by unfold quadVal; push_cast; ring)
    · exact key _ 80 (by norm_num) (by unfold quadVal; push_cast; ring)

theorem inBlock20_disjoint {s t : String} {u v : Int}
    (hsu : cidrStart s = some u) (htv : cidrStart t = some v)
    (hsep : u + 4096 ≤ v ∨ v + 4096 ≤ u) :
    ∀ x : Int, inBlock20 s x → inBlock20 t x → False := by
  intro x hx1 hx2
  obtain ⟨n, hn, hn1, hn2⟩ := hx1
  obtain ⟨m, hm, hm1, hm2⟩ := hx2
  rw [hsu, Option.some.injEq] at hn
  rw [htv, Option.some.injEq] at hm
  subst hn
  subst hm
  omega

/-- C1: for every valid /16 top-level block (base a.b.0.0), the allocator
returns exactly the 6 /20 sub-blocks a.b.0.0/20, a.b.16.0/20 (Web),
a.b.32.0/20, a.b.48.0/20 (App), a.b.64.0/20, a.b.80.0/20 (Data) -- tier
order Web, App, Data and zone order 0 then 1 -- and these blocks are
pairwise disjoint, contained in the top-level block, and together occupy
exactly the addresses [base, base + 24576). Instantiating a = b = 10
gives the concrete 10.10.0.0/16 scenario. -/
theorem allocator_fixed_allocation (a b : Nat) (ha : a < 256) (hb : b < 256) (self : StackSelf) :
    calculateFixedSubnetAllocation self (quadStr a b 0 0 ++ "/16") =
      .ok { web := [quadStr a b 0 0 ++ "/20", quadStr a b 16 0 ++ "/20"],
            app := [quadStr a b 32 0 ++ "/20", quadStr a b 48 0 ++ "/20"],
            data := [quadStr a b 64 0 ++ "/20", quadStr a b 80 0 ++ "/20"] } ∧
    ∀ A : Allocation,
      calculateFixedSubnetAllocation self (quadStr a b 0 0 ++ "/16") = .ok A →
      A.blocks.length = 6 ∧
      A.blocks.map cidrStart =
        [some (quadVal a b 0 0), some (quadVal a b 16 0), some (quadVal a b 32 0),
         some (quadVal a b 48 0), some (quadVal a b 64 0), some (quadVal a b 80 0)] ∧
      List.Pairwise (fun s t => ∀ x : Int, inBlock20 s x → inBlock20 t x → False) A.blocks ∧
      (∀ x : Int, (∃ s ∈ A.blocks, inBlock20 s x) ↔
        quadVal a b 0 0 ≤ x ∧ x < quadVal a b 0 0 + 24576) ∧
      (∀ s ∈ A.blocks, ∀ x : Int, inBlock20 s x →
        quadVal a b 0 0 ≤ x ∧ x < quadVal a b 0 0 + 65536) := by
  have hmain := calc_alloc_valid16 a b ha hb self
  refine ⟨hmain, ?_⟩
  intro A hA
  rw [hmain] at hA
  injection hA with hA
  have hbl : A.blocks = [quadStr a b 0 0 ++ "/20", quadStr a b 16 0 ++ "/20",
      quadStr a b 32 0 ++ "/20", quadStr a b 48 0 ++ "/20",
      quadStr a b 64 0 ++ "/20", quadStr a b 80 0 ++ "/20"] := by
    rw [← hA]
    rfl
  have hq0 := cidrStart_quad20 (c := 0) ha hb (by norm_num)
  have hq16 := cidrStart_quad20 (c := 16) ha hb (by norm_num)
  have hq32 := cidrStart_quad20 (c := 32) ha hb (by norm_num)
  have hq48 := cidrStart_quad20 (c := 48) ha hb (by norm_num)
  have hq64 := cidrStart_quad20 (c := 64) ha hb (by norm_num)
  have hq80 := cidrStart_quad20 (c := 80) ha hb (by norm_num)
  refine ⟨by rw [hbl]; rfl, ?_, ?_, ?_, ?_⟩
  · rw [hbl]
    simp only [List.map_cons, List.map_nil]
    rw [hq0, hq16, hq32, hq48, hq64, hq80]
  · rw [hbl]
    refine List.Pairwise.cons ?_ (List.Pairwise.cons ?_ (List.Pairwise.cons ?_
      (List.Pairwise.cons ?_ (List.Pairwise.cons ?_ (List.Pairwise.cons ?_
        List.Pairwise.nil)))))
    · intro t ht
      simp only [List.mem_cons, List.not_mem_nil, or_false] at ht
      rcases ht with rfl | rfl | rfl | rfl | rfl
      · exact inBlock20_disjoint hq0 hq16 (by unfold quadVal; omega)
      · exact inBlock20_disjoint hq0 hq32 (by unfold quadVal; omega)
      · exact inBlock20_disjoint hq0 hq48 (by unfold quadVal; omega)
      · exact inBlock20_disjoint hq0 hq64 (by unfold quadVal; omega)
      · exact inBlock20_disjoint hq0 hq80 (by unfold quadVal; omega)
    · intro t ht
      simp only [List.mem_cons, List.not_mem_nil, or_false] at ht
      rcases ht with rfl | rfl | rfl | rfl
      · exact inBlock20_disjoint hq16 hq32 (by unfold quadVal; omega)
      · exact inBlock20_disjoint hq16 hq48 (by unfold quadVal; omega)
      · exact inBlock20_disjoint hq16 hq64 (by unfold quadVal; omega)
      · exact inBlock20_disjoint hq16 hq80 (by unfold quadVal; omega)
    · intro t ht
      simp only [List.mem_cons, List.not_mem_nil, or_false] at ht
      rcases ht with rfl | rfl | rfl
      · exact inBlock20_disjoint hq32 hq48 (by unfold quadVal; omega)
      · exact inBlock20_disjoint hq32 hq64 (by unfold quadVal; omega)
      · exact inBlock20_disjoint hq32 hq80 (by unfold quadVal; omega)
    · intro t ht
      simp only [List.mem_cons, List.not_mem_nil, or_false] at ht
      rcases ht with rfl | rfl
      · exact inBlock20_disjoint hq48 hq64 (by unfold quadVal; omega)
      · exact inBlock20_disjoint hq48 hq80 (by unfold quadVal; omega)
    · intro t ht
      simp only [List.mem_cons, List.not_mem_nil, or_false] at ht
      rcases ht with rfl
      exact inBlock20_disjoint hq64 hq80 (by unfold quadVal; omega)
    · intro t ht
      exact absurd ht (List.not_mem_nil t)
  · intro x
    rw [hbl]
    constructor
    · rintro ⟨s, hs, hx⟩
      simp only [List.mem_cons, List.not_mem_nil, or_false] at hs
      rcases hs with rfl | rfl | rfl | rfl | rfl | rfl
      · obtain ⟨n, hn, h1, h2⟩ := hx
        rw [hq0, Option.some.injEq] at hn
        subst hn
        unfold quadVal at h1 h2 ⊢
        omega
      · obtain ⟨n, hn, h1, h2⟩ := hx
        rw [hq16, Option.some.injEq] at hn
        subst hn
        unfold quadVal at h1 h2 ⊢
        omega
      · obtain ⟨n, hn, h1, h2⟩ := hx
        rw [hq32, Option.some.injEq] at hn
        subst hn
        unfold quadVal at h1 h2 ⊢
        omega
      · obtain ⟨n, hn, h1, h2⟩ := hx
        rw [hq48, Option.some.injEq] at hn
        subst hn
        unfold quadVal at h1 h2 ⊢
        omega
      · obtain ⟨n, hn, h1, h2⟩ := hx
        rw [hq64, Option.some.injEq] at hn
        subst hn
        unfold quadVal at h1 h2 ⊢
        omega
      · obtain ⟨n, hn, h1, h2⟩ := hx
        rw [hq80, Option.some.injEq] at hn
        subst hn
        unfold quadVal at h1 h2 ⊢
        omega
    · intro hx
      by_cases c1 : x < quadVal a b 0 0 + 4096
      · exact ⟨quadStr a b 0 0 ++ "/20", List.mem_cons_self _ _,
          quadVal a b 0 0, hq0, by omega, by omega⟩
      by_cases c2 : x < quadVal a b 0 0 + 8192
      · exact ⟨quadStr a b 16 0 ++ "/20",
          List.mem_cons_of_mem _ (List.mem_cons_self _ _),
          quadVal a b 16 0, hq16, by unfold quadVal at *; omega,
          by unfold quadVal at *; omega⟩
      by_cases c3 : x < quadVal a b 0 0 + 12288
      · exact ⟨quadStr a b 32 0 ++ "/20",
          List.mem_cons_of_mem _ (List.mem_cons_of_mem _ (List.mem_cons_self _ _)),
          quadVal a b 32 0, hq32, by unfold quadVal at *; omega,
          by unfold quadVal at *; omega⟩
      by_cases c4 : x < quadVal a b 0 0 + 16384
      · exact ⟨quadStr a b 48 0 ++ "/20",
          List.mem_cons_of_mem _ (List.mem_cons_of_mem _ (List.mem_cons_of_mem _
            (List.mem_cons_self _ _))),
          quadVal a b 48 0, hq48, by unfold quadVal at *; omega,
          by unfold quadVal at *; omega⟩
      by_cases c5 : x < quadVal a b 0 0 + 20480
      · exact ⟨quadStr a b 64 0 ++ "/20",
          List.mem_cons_of_mem _ (List.mem_cons_of_mem _ (List.mem_cons_of_mem _
            (List.mem_cons_of_mem _ (List.mem_cons_self _ _)))),
          quadVal a b 64 0, hq64, by unfold quadVal at *; omega,
          by unfold quadVal at *; omega⟩
      exact ⟨quadStr a b 80 0 ++ "/20",
        List.mem_cons_of_mem _ (List.mem_cons_of_mem _ (List.mem_cons_of_mem _
          (List.mem_cons_of_mem _ (List.mem_cons_of_mem _ (List.mem_cons_self _ _))))),
        quadVal a b 80 0, hq80, by unfold quadVal at *; omega,
        by unfold quadVal at *; omega⟩
  · intro s hs x hx
    rw [hbl] at hs
    simp only [List.mem_cons, List.not_mem_nil, or_false] at hs
    rcases hs with rfl | rfl | rfl | rfl | rfl | rfl
    · obtain ⟨n, hn, h1, h2⟩ := hx
      rw [hq0, Option.some.injEq] at hn
      subst hn
      unfold quadVal at h1 h2 ⊢
      omega
    · obtain ⟨n, hn, h1, h2⟩ := hx
      rw [hq16, Option.some.injEq] at hn
      subst hn
      unfold quadVal at h1 h2 ⊢
      omega
    · obtain ⟨n, hn, h1, h2⟩ := hx
      rw [hq32, Option.some.injEq] at hn
      subst hn
      unfold quadVal at h1 h2 ⊢
      omega
    · obtain ⟨n, hn, h1, h2⟩ := hx
      rw [hq48, Option.some.injEq] at hn
      subst hn
      unfold quadVal at h1 h2 ⊢
      omega
    · obtain ⟨n, hn, h1, h2⟩ := hx
      rw [hq64, Option.some.injEq] at hn
      subst hn
      unfold quadVal at h1 h2 ⊢
      omega
    · obtain ⟨n, hn, h1, h2⟩ := hx
      rw [hq80, Option.some.injEq] at hn
      subst hn
      unfold quadVal at h1 h2 ⊢
      omega

theorem allocator_fixed_allocation_witness :
    (10 : Nat) < 256 ∧
    calculateFixedSubnetAllocation
      ⟨⟨"testapp", "10.10.0.0/16", "us-east-1", "dev", none, none⟩, "dev-testapp"⟩
      "10.10.0.0/16" =
      .ok { web := ["10.10.0.0/20", "10.10.16.0/20"],
            app := ["10.10.32.0/20", "10.10.48.0/20"],
            data := ["10.10.64.0/20", "10.10.80.0/20"] } := by
  constructor
  · decide
  · have h := (allocator_fixed_allocation 10 10 (by decide) (by decide)
      ⟨⟨"testapp", "10.10.0.0/16", "us-east-1", "dev", none, none⟩, "dev-testapp"⟩).1
    rw [show ("10.10.0.0/16" : String) = quadStr 10 10 0 0 ++ "/16" from by decide,
      show ("10.10.0.0/20" : String) = quadStr 10 10 0 0 ++ "/20" from by decide,
      show ("10.10.16.0/20" : String) = quadStr 10 10 16 0 ++ "/20" from by decide,
      show ("10.10.32.0/20" : String) = quadStr 10 10 32 0 ++ "/20" from by decide,
      show ("10.10.48.0/20" : String) = quadStr 10 10 48 0 ++ "/20" from by decide,
      show ("10.10.64.0/20" : String) = quadStr 10 10 64 0 ++ "/20" from by decide,
      show ("10.10.80.0/20" : String) = quadStr 10 10 80 0 ++ "/20" from by decide]
    exact h

/-- C4: in every successfully built stack, the Web route table has exactly
one default route (destination 0.0.0.0/0) targeting the internet gateway,
the App route table exactly one default route targeting the NAT instance,
and the Data route table none. -/
theorem default_routes_per_tier (config : ConfigProps) (namePrefix region account : String)
    (azs : List String) (st : NetworkingStack)
    (h : mkNetworkingStack config namePrefix region account azs = .ok st) :
    defaultRoutesTo st "WebRouteTable" =
      [{ routeTableId := "WebRouteTable", destinationCidrBlock := "0.0.0.0/0",
         gatewayId := some "InternetGateway", instanceId := none }] ∧
    defaultRoutesTo st "AppRouteTable" =
      [{ routeTableId := "AppRouteTable", destinationCidrBlock := "0.0.0.0/0",
         gatewayId := none, instanceId := some "NatInstance" }] ∧
    defaultRoutesTo st "DataRouteTable" = [] := by
  simp only [mkNetworkingStack] at h
  split at h
  · exact absurd h (by simp)
  · split at h
    · exact absurd h (by simp)
    · injection h with h
      subst h
      exact ⟨rfl, rfl, rfl⟩

/-- C7: for every (tier, zone index) pair the builder creates exactly one
subnet (ids enumerate all six), carrying that pair's allocated block and
zone, public iff the tier is Web, and exactly one route-table association
for that subnet, pointing at the tier's own route table. -/
theorem subnets_per_tier_zone (config : ConfigProps) (namePrefix region account : String)
    (azs : List String) (z0 z1 : String) (st : NetworkingStack)
    (hazs : azs.take 2 = [z0, z1])
    (h : mkNetworkingStack config namePrefix region account azs = .ok st) :
    st.subnets.map (fun s => s.id) =
      [tierSubnetId .web 0, tierSubnetId .web 1, tierSubnetId .app 0,
       tierSubnetId .app 1, tierSubnetId .data 0, tierSubnetId .data 1] ∧
    ∀ t : Tier, ∀ i : Nat, i < 2 →
      (st.subnets.filter (fun s => s.id == tierSubnetId t i)).map
          (fun s => (s.cidrBlock, s.availabilityZone, s.mapPublicIpOnLaunch)) =
        [((st.subnetAllocation.blocksOf t).getD i "", [z0, z1].getD i "", t == Tier.web)] ∧
      st.associations.filter (fun a => a.subnetId == tierSubnetId t i) =
        [{ subnetId := tierSubnetId t i, routeTableId := tierRouteTableId t }] := by
  simp only [mkNetworkingStack] at h
  split at h
  · exact absurd h (by simp)
  · split at h
    · exact absurd h (by simp)
    · injection h with h
      subst h
      rw [hazs]
      constructor
      · rfl
      · intro t i hi
        interval_cases i <;> cases t <;> exact ⟨rfl, rfl⟩

/-- C8: the NAT instance is placed in the first (index 0) Web-tier public
subnet, its source/destination check is disabled, and its security group's
single ingress rule admits all traffic from the top-level block's full
address range (the VPC CIDR). -/
theorem nat_instance_placement (config : ConfigProps) (namePrefix region account : String)
    (azs : List String) (z0 z1 : String) (st : NetworkingStack)
    (hazs : azs.take 2 = [z0, z1])
    (h : mkNetworkingStack config namePrefix region account azs = .ok st) :
    st.natInstance.vpcSubnets = [some (st.webSubnetIds.getD 0 "")] ∧
    st.webSubnetIds.getD 0 "" = "WebSubnet0" ∧
    st.natInstance.sourceDestCheck = false ∧
    st.natSGIngress = [{ peer := config.cidr, port := PortSpec.allTraffic,
                         description := "Allow all traffic from VPC" }] ∧
    st.vpcCidr = config.cidr := by
  simp only [mkNetworkingStack] at h
  split at h
  · exact absurd h (by simp)
  · split at h
    · exact absurd h (by simp)
    · injection h with h
      subst h
      rw [hazs]
      exact ⟨rfl, rfl, rfl, rfl, rfl⟩

/-- C5: with an absent or empty account list no resource share is produced
(and this is not an error: the stack still builds); with a non-empty list
exactly one share is produced whose ARN list has exactly 6 entries covering
every subnet of all three tiers, naming all configured accounts as
principals, with external principals disallowed. -/
theorem sharing_plan_conditional (config : ConfigProps) (namePrefix region account : String)
    (azs : List String) (z0 z1 : String) (st : NetworkingStack)
    (hazs : azs.take 2 = [z0, z1])
    (h : mkNetworkingStack config namePrefix region account azs = .ok st) :
    (config.accounts = none → st.resourceShare = none) ∧
    (config.accounts = some [] → st.resourceShare = none) ∧
    (∀ acct accts, config.accounts = some (acct :: accts) →
      st.resourceShare = some
        { name := namePrefix ++ "-subnet-share",
          resourceArns := (st.webSubnetIds ++ st.appSubnetIds ++ st.dataSubnetIds).map
            (fun sid => subnetArn region account sid),
          principals := acct :: accts,
          allowExternalPrincipals := false } ∧
      st.resourceShare.map (fun rs => rs.resourceArns.length) = some 6 ∧
      st.resourceShare.map (fun rs => rs.resourceArns) =
        some (st.subnets.map (fun s => subnetArn region account s.id))) := by
  simp only [mkNetworkingStack] at h
  split at h
  · exact absurd h (by simp)
  · split at h
    · exact absurd h (by simp)
    · injection h with h
      subst h
      rw [hazs]
      refine ⟨?_, ?_, ?_⟩
      · intro hacc
        rw [hacc]
      · intro hacc
        rw [hacc]
      · intro acct accts hacc
        rw [hacc]
        refine ⟨rfl, rfl, rfl⟩

/-- C3: whenever the text after the first slash of the configured CIDR is
not the string 16, the constructor returns the InvalidTopLevelPrefix error
carrying that offending prefix text, and returns no stack at all: the
validation is the first step of the constructor, so no graph node exists
in the error case (the Except value is the error alone). -/
theorem invalid_prefix_aborts (config : ConfigProps) (namePrefix region account : String)
    (azs : List String)
    (hp : (splitOnChar '/' config.cidr.data)[1]? ≠ some ['1', '6']) :
    mkNetworkingStack config namePrefix region account azs =
      .error (String.mk ("VPC CIDR must be /16, got /".data
        ++ ((splitOnChar '/' config.cidr.data)[1]?.getD "undefined".data)
        ++ ". This CDK is designed for /16 VPCs with /20 subnets.".data)) := by
  simp only [mkNetworkingStack]
  rw [if_pos hp]

theorem default_routes_per_tier_witness :
    mkNetworkingStack sampleConfig "dev-testapp" "us-east-1" "123456789012"
      ["use1-az1", "use1-az2"] = .ok sampleStack ∧
    defaultRoutesTo sampleStack "WebRouteTable" =
      [{ routeTableId := "WebRouteTable", destinationCidrBlock := "0.0.0.0/0",
         gatewayId := some "InternetGateway", instanceId := none }] ∧
    defaultRoutesTo sampleStack "AppRouteTable" =
      [{ routeTableId := "AppRouteTable", destinationCidrBlock := "0.0.0.0/0",
         gatewayId := none, instanceId := some "NatInstance" }] ∧
    defaultRoutesTo sampleStack "DataRouteTable" = [] := by
  refine ⟨rfl, ?_⟩
  exact default_routes_per_tier sampleConfig "dev-testapp" "us-east-1" "123456789012"
    ["use1-az1", "use1-az2"] sampleStack rfl

theorem subnets_per_tier_zone_witness :
    (["use1-az1", "use1-az2"] : List String).take 2 = ["use1-az1", "use1-az2"] ∧
    mkNetworkingStack sampleConfig "dev-testapp" "us-east-1" "123456789012"
      ["use1-az1", "use1-az2"] = .ok sampleStack ∧
    (sampleStack.subnets.map (fun s => s.id) =
      [tierSubnetId .web 0, tierSubnetId .web 1, tierSubnetId .app 0,
       tierSubnetId .app 1, tierSubnetId .data 0, tierSubnetId .data 1] ∧
    ∀ t : Tier, ∀ i : Nat, i < 2 →
      (sampleStack.subnets.filter (fun s => s.id == tierSubnetId t i)).map
          (fun s => (s.cidrBlock, s.availabilityZone, s.mapPublicIpOnLaunch)) =
        [((sampleStack.subnetAllocation.blocksOf t).getD i "",
          ["use1-az1", "use1-az2"].getD i "", t == Tier.web)] ∧
      sampleStack.associations.filter (fun a => a.subnetId == tierSubnetId t i) =
        [{ subnetId := tierSubnetId t i, routeTableId := tierRouteTableId t }]) := by
  refine ⟨rfl, rfl, ?_⟩
  exact subnets_per_tier_zone sampleConfig "dev-testapp" "us-east-1" "123456789012"
    ["use1-az1", "use1-az2"] "use1-az1" "use1-az2" sampleStack rfl rfl

theorem nat_instance_placement_witness :
    (["use1-az1", "use1-az2"] : List String).take 2 = ["use1-az1", "use1-az2"] ∧
    mkNetworkingStack sampleConfig "dev-testapp" "us-east-1" "123456789012"
      ["use1-az1", "use1-az2"] = .ok sampleStack ∧
    (sampleStack.natInstance.vpcSubnets = [some (sampleStack.webSubnetIds.getD 0 "")] ∧
    sampleStack.webSubnetIds.getD 0 "" = "WebSubnet0" ∧
    sampleStack.natInstance.sourceDestCheck = false ∧
    sampleStack.natSGIngress = [{ peer := sampleConfig.cidr, port := PortSpec.allTraffic,
                                  description := "Allow all traffic from VPC" }] ∧
    sampleStack.vpcCidr = sampleConfig.cidr) := by
  refine ⟨rfl, rfl, ?_⟩
  exact nat_instance_placement sampleConfig "dev-testapp" "us-east-1" "123456789012"
    ["use1-az1", "use1-az2"] "use1-az1" "use1-az2" sampleStack rfl rfl

theorem sharing_plan_conditional_witness :
    (["use1-az1", "use1-az2"] : List String).take 2 = ["use1-az1", "use1-az2"] ∧
    mkNetworkingStack sampleConfig "dev-testapp" "us-east-1" "123456789012"
      ["use1-az1", "use1-az2"] = .ok sampleStack ∧
    sampleConfig.accounts = some ("111122223333" :: []) ∧
    (sampleStack.resourceShare = some
      { name := "dev-testapp" ++ "-subnet-share",
        resourceArns := (sampleStack.webSubnetIds ++ sampleStack.appSubnetIds
          ++ sampleStack.dataSubnetIds).map
            (fun sid => subnetArn "us-east-1" "123456789012" sid),
        principals := "111122223333" :: [],
        allowExternalPrincipals := false } ∧
    sampleStack.resourceShare.map (fun rs => rs.resourceArns.length) = some 6 ∧
    sampleStack.resourceShare.map (fun rs => rs.resourceArns) =
      some (sampleStack.subnets.map
        (fun s => subnetArn "us-east-1" "123456789012" s.id))) := by
  refine ⟨rfl, rfl, rfl, ?_⟩
  exact (sharing_plan_conditional sampleConfig "dev-testapp" "us-east-1" "123456789012"
    ["use1-az1", "use1-az2"] "use1-az1" "use1-az2" sampleStack rfl rfl).2.2
    "111122223333" [] rfl

theorem invalid_prefix_aborts_witness :
    ((splitOnChar '/' (("10.10.0.0/24" : String)).data)[1]? ≠ some ['1', '6']) ∧
    mkNetworkingStack
      { project := "testapp", cidr := "10.10.0.0/24", region := "us-east-1",
        env := "dev", awsApplicationTag := none, accounts := none }
      "dev-testapp" "us-east-1" "123456789012" ["use1-az1", "use1-az2"] =
      .error "VPC CIDR must be /16, got /24. This CDK is designed for /16 VPCs with /20 subnets." := by
  refine ⟨by decide, ?_⟩
  have h := invalid_prefix_aborts
    { project := "testapp", cidr := "10.10.0.0/24", region := "us-east-1",
      env := "dev", awsApplicationTag := none, accounts := none }
    "dev-testapp" "us-east-1" "123456789012" ["use1-az1", "use1-az2"] (by decide)
  rw [h]
  exact congrArg Except.error (by decide)

/-- C9: the allocator is pure and deterministic: its result does not depend
on the enclosing stack instance (any two receivers give the same result),
and two invocations on equal CIDR strings return equal allocations. -/
theorem allocator_pure_deterministic :
    (∀ (self1 self2 : StackSelf) (vpcCidr : String),
      calculateFixedSubnetAllocation self1 vpcCidr =
        calculateFixedSubnetAllocation self2 vpcCidr) ∧
    (∀ (self : StackSelf) (cidr1 cidr2 : String), cidr1 = cidr2 →
      calculateFixedSubnetAllocation self cidr1 =
        calculateFixedSubnetAllocation self cidr2) :=
  ⟨fun _ _ _ => rfl, fun _ _ _ h => by rw [h]⟩

theorem allocator_pure_deterministic_witness :
    ("10.10.0.0/16" : String) = "10.10.0.0/16" ∧
    calculateFixedSubnetAllocation sampleSelf "10.10.0.0/16" =
      calculateFixedSubnetAllocation
        { config := { project := "other", cidr := "172.16.0.0/16", region := "eu-west-1",
                      env := "prod", awsApplicationTag := none, accounts := none },
          namePrefix := "prod-other" } "10.10.0.0/16" :=
  ⟨rfl, (allocator_pure_deterministic).1 sampleSelf
    { config := { project := "other", cidr := "172.16.0.0/16", region := "eu-west-1",
                  env := "prod", awsApplicationTag := none, accounts := none },
      namePrefix := "prod-other" } "10.10.0.0/16"⟩

/-- C10: the top-level prefix validation is an exact string comparison of
the text after the first slash against 16: any textually different prefix
is rejected with the InvalidTopLevelPrefix error carrying that text, even
when numerically 16 (10.0.0.0/016, 10.0.0.0/16 with a trailing space), and
a CIDR with no slash is rejected the same way with undefined as the
reported prefix, not by any other failure. -/
theorem prefix_check_textual :
    (∀ (self : StackSelf) (q p : List Char), '/' ∉ q → '/' ∉ p → p ≠ ['1', '6'] →
      calculateFixedSubnetAllocation self (String.mk (q ++ '/' :: p)) =
        .error (String.mk ("VPC CIDR must be /16, got /".data ++ p))) ∧
    calculateFixedSubnetAllocation sampleSelf "10.0.0.0/016" =
      .error "VPC CIDR must be /16, got /016" ∧
    calculateFixedSubnetAllocation sampleSelf "10.0.0.0/16 " =
      .error "VPC CIDR must be /16, got /16 " ∧
    calculateFixedSubnetAllocation sampleSelf "10.0.0.0" =
      .error "VPC CIDR must be /16, got /undefined" ∧
    mkNetworkingStack
      { project := "testapp", cidr := "10.0.0.0", region := "us-east-1",
        env := "dev", awsApplicationTag := none, accounts := none }
      "dev-testapp" "us-east-1" "123456789012" ["use1-az1", "use1-az2"] =
      .error "VPC CIDR must be /16, got /undefined. This CDK is designed for /16 VPCs with /20 subnets." := by
  refine ⟨?_, by rfl, by rfl, by rfl, by rfl⟩
  intro self q p hq hp hne
  have hdata : (String.mk (q ++ '/' :: p)).data = q ++ '/' :: p := rfl
  simp only [calculateFixedSubnetAllocation, hdata, splitSlash_cidr hq hp,
    List.getElem?_cons_succ, List.getElem?_cons_zero, List.headD_cons]
  rw [if_pos (by simpa using hne)]
  simp only [Option.getD_some]

theorem prefix_check_textual_witness :
    ('/' ∉ ("10.0.0.0" : String).data ∧ '/' ∉ (['0', '1', '6'] : List Char) ∧
      (['0', '1', '6'] : List Char) ≠ ['1', '6']) ∧
    calculateFixedSubnetAllocation sampleSelf
        (String.mk (("10.0.0.0" : String).data ++ '/' :: ['0', '1', '6'])) =
      .error (String.mk ("VPC CIDR must be /16, got /".data ++ ['0', '1', '6'])) :=
  ⟨⟨by decide, by decide, by decide⟩,
    (prefix_check_textual).1 sampleSelf ("10.0.0.0" : String).data ['0', '1', '6']
      (by decide) (by decide) (by decide)⟩

/-- C6: numberToIp (toAddr) inverts ipToNumber (toInt) on every valid
dotted-quad address string -- four dot-separated octets, each the decimal
text of an integer in [0, 255], including the boundary values 0.0.0.0 and
255.255.255.255. -/
theorem addr_roundtrip (s : String) (h : isValidQuad s = true) :
    numberToIp (ipToNumber s) = s := by
  unfold isValidQuad at h
  split at h
  · rename_i p1 p2 p3 p4 heq
    simp only [Bool.and_eq_true, canonicalOctet, decide_eq_true_eq] at h
    obtain ⟨⟨⟨⟨n1, hp1⟩, n2, hp2⟩, n3, hp3⟩, n4, hp4⟩ := h
    subst hp1
    subst hp2
    subst hp3
    subst hp4
    have hjoin : joinChar '.' (splitOnChar '.' s.data) = s.data :=
      joinChar_splitOnChar '.' s.data
    rw [heq] at hjoin
    have hs : s = quadStr n1.1 n2.1 n3.1 n4.1 := (congrArg String.mk hjoin).symm
    rw [hs]
    exact roundtrip_quadStr n1.2 n2.2 n3.2 n4.2
  · exact absurd h (by simp)

set_option maxRecDepth 8192 in
theorem addr_roundtrip_witness :
    isValidQuad "255.255.255.255" = true ∧
    numberToIp (ipToNumber "255.255.255.255") = "255.255.255.255" :=
  ⟨by decide, addr_roundtrip "255.255.255.255" (by decide)⟩

/-- C2 (amended): ipToNumber never raises any error. On every valid dotted
quad it succeeds with the correct 32-bit value (and in particular returns
a some value). Malformed addresses are not rejected: no MalformedAddress
failure exists in the code. -/
theorem ipToNumber_valid_quad_succeeds (a b c d : Nat)
    (ha : a < 256) (hb : b < 256) (hc : c < 256) (hd : d < 256) :
    ipToNumber (quadStr a b c d) = some (quadVal a b c d) ∧
    (ipToNumber (quadStr a b c d)).isSome = true := by
  have h := ipToNumber_quadStr ha hb hc hd
  exact ⟨h, by rw [h]; rfl⟩

theorem ipToNumber_valid_quad_succeeds_witness :
    (10 : Nat) < 256 ∧
    (ipToNumber (quadStr 10 10 0 0) = some (quadVal 10 10 0 0) ∧
      (ipToNumber (quadStr 10 10 0 0)).isSome = true) :=
  ⟨by decide, ipToNumber_valid_quad_succeeds 10 10 0 0
    (by decide) (by decide) (by decide) (by decide)⟩

set_option maxRecDepth 8192 in
/-- C2 counterexample: 1.2.3.256 is not a valid dotted quad (octet 256 is
out of range), yet ipToNumber returns the ordinary number 16909312 for it
instead of failing; hence the claim that ipToNumber fails on every
malformed input is false (none, the only failure-like result, modelling
NaN, does not occur). -/
theorem ipToNumber_malformed_counterexample :
    isValidQuad "1.2.3.256" = false ∧
    ipToNumber "1.2.3.256" = some 16909312 ∧
    ¬ (∀ s : String, isValidQuad s = false → ipToNumber s = none) := by
  refine ⟨by decide, by decide, fun hclaim => ?_⟩
  have h1 := hclaim "1.2.3.256" (by decide)
  have h2 : ipToNumber "1.2.3.256" = some 16909312 := by decide
  rw [h2] at h1
  exact Option.noConfusion h1
